import Mathlib

/-!
Shallow embedding of the Environmental Monitor (main.c) — the seismic
fetch/filter/sort/alert pipeline, the lightning pipeline, the display
renderer's storm-banner logic, the relative-age formatter and the
command-line argument loop — together with theorems settling the spec's
claims about them.

Modelling conventions:
- C doubles/floats (magnitudes, thresholds, coordinates) are modelled as
  rationals; the program only compares and copies them, so the ordering
  is all that matters and is preserved exactly.
- The external collaborators (libcurl transport and jansson parsing) are
  modelled by an Option-typed feed argument: none is a transport failure
  or a body that does not parse; some f is a successfully parsed feed.
- C fixed-size char buffers keep their snprintf/strncpy truncation
  semantics: a 20-byte buffer holds at most 19 characters, and so on.
-/

set_option maxHeartbeats 1000000
set_option maxRecDepth 20000

namespace EarthquakeMonitor

/-- Magnitudes and thresholds (C doubles/floats) modelled as rationals. -/
abbrev Mag := ℚ

/-- Constant MAX_QUAKES (main.c line 27). -/
def MAX_QUAKES : Nat := 200

/-- Constant MAX_ALERTED_IDS (main.c line 28). -/
def MAX_ALERTED_IDS : Nat := 50

/-- Constant MAJOR_QUAKE_THRESHOLD (main.c line 26). -/
def MAJOR_QUAKE_THRESHOLD : Mag := 6

/-- Struct Earthquake (main.c lines 49-54): double mag; char place[256];
char time_ago[20]; char id[64]. -/
structure Earthquake where
  mag : Mag
  place : String
  time_ago : String
  id : String
deriving DecidableEq, Repr, Inhabited

/-- Input view of one element of the feed's features array, as the code
reads it (main.c lines 160-170): properties.mag via json_real_value
(0 when the field is absent or not a number, so the field is plain Mag),
properties.place and properties.id via json_string_value (NULL, i.e.
none, when absent or not a string), properties.time via
json_integer_value. -/
structure Feature where
  mag : Mag
  place : Option String
  id : Option String
  time : Int
deriving DecidableEq, Repr

/-- Global seismic state (main.c lines 58-59): the fixed 200-slot array
g_quakes together with g_quake_count.  The quakes list always has
length MAX_QUAKES, mirroring the fixed array. -/
structure SeismicState where
  quakes : List Earthquake
  count : Nat
deriving DecidableEq, Repr

/-- Function format_time_ago (main.c lines 274-279).  diff_s is
now - event_time_ms / 1000 with C truncating division; under 60 the
seconds form is used, otherwise minutes by truncating division.  The
snprintf target is the 20-byte time_ago field, so at most 19 characters
of the formatted text are kept. -/
def format_time_ago (now : Int) (event_time_ms : Int) : String :=
  let diff_s : Int := now - event_time_ms.tdiv 1000
  if diff_s < 60 then (toString diff_s ++ "s ago").take 19
  else (toString (diff_s.tdiv 60) ++ "m ago").take 19

/-- One slot write of the retained-feature loop body (main.c lines
164-172): mag is always stored; place and id are strncpy-ed only when
json_string_value returned a string (sizes 256 and 64, so 255 and 63
characters are kept; the slot keeps its previous bytes when the field is
absent); time_ago is always rewritten via format_time_ago. -/
def updateSlot (now : Int) (slot : Earthquake) (f : Feature) : Earthquake :=
  { mag := f.mag
    place := match f.place with
      | some p => p.take 255
      | none => slot.place
    id := match f.id with
      | some s => s.take 63
      | none => slot.id
    time_ago := format_time_ago now f.time }

/-- Feature-selection part of the fetch loop (main.c line 159-173): scan
the features in feed order while g_quake_count < MAX_QUAKES, keeping
those with mag >= min_magnitude.  The Nat argument is the running
g_quake_count. -/
def selectQuakes (min_magnitude : Mag) : Nat → List Feature → List Feature
  | _, [] => []
  | k, f :: fs =>
    if k < MAX_QUAKES then
      if min_magnitude ≤ f.mag then f :: selectQuakes min_magnitude (k + 1) fs
      else selectQuakes min_magnitude k fs
    else []

/-- Slot-write part of the fetch loop: the k-th retained feature is
written into slot k, so the loop walks the array prefix in step with the
retained features (main.c lines 159-173). -/
def writeZip (now : Int) : List Earthquake → List Feature → List Earthquake
  | arr, [] => arr
  | [], _ :: _ => []
  | slot :: arr, f :: fs => updateSlot now slot f :: writeZip now arr fs

/-- Comparator compare_quakes (main.c lines 281-287) as the ordering it
induces: qsort places a before b exactly when the comparator is <= 0 on
(a, b), i.e. when b.mag <= a.mag — descending magnitude. -/
abbrev compare_quakes (a b : Earthquake) : Prop := b.mag ≤ a.mag

instance : IsTotal Earthquake compare_quakes := ⟨fun a b => le_total b.mag a.mag⟩

instance : IsTrans Earthquake compare_quakes := ⟨fun _ _ _ h1 h2 => le_trans h2 h1⟩

/-- Ring insertion of check_for_quake_alerts (main.c lines 301-306):
append while below MAX_ALERTED_IDS, otherwise shift every entry left by
one (dropping the oldest, at index 0) and write the new id at the end. -/
def insertRing (r : List String) (x : String) : List String :=
  if r.length < MAX_ALERTED_IDS then r ++ [x] else r.tail ++ [x]

/-- Function check_for_quake_alerts (main.c lines 289-309) on the ring
state: for each quake of the list with mag >= alert_threshold whose id
is not in the ring (linear strcmp scan), a bell is printed and the id is
inserted.  Returns the new ring and the ids that rang the bell, in
order. -/
def check_for_quake_alerts (alert_threshold : Mag) (r : List String) :
    List Earthquake → List String × List String
  | [] => (r, [])
  | q :: qs =>
    if alert_threshold ≤ q.mag then
      if q.id ∈ r then check_for_quake_alerts alert_threshold r qs
      else
        let res := check_for_quake_alerts alert_threshold (insertRing r q.id) qs
        (res.1, q.id :: res.2)
    else check_for_quake_alerts alert_threshold r qs

/-- Function fetch_seismic_data (main.c lines 139-183).  g_quake_count
is zeroed at the start (line 143); on transport failure (curl result not
CURLE_OK) or parse failure (json_loads returning NULL) nothing else
happens — no message is printed, the bell never rings, the ring is
untouched.  On success the retained features are written into the array
prefix, the prefix is sorted descending by magnitude, and
check_for_quake_alerts runs on the displayed prefix.  Returns the new
seismic state, the new alerted-id ring and the bell trace. -/
def fetch_seismic_data (now : Int) (min_magnitude alert_threshold : Mag)
    (feed : Option (List Feature)) (st : SeismicState) (ring : List String) :
    SeismicState × List String × List String :=
  match feed with
  | none => ({ st with count := 0 }, ring, [])
  | some features =>
    let sel := selectQuakes min_magnitude 0 features
    let arr := writeZip now st.quakes sel
    let n := sel.length
    let sorted := (arr.take n).insertionSort compare_quakes ++ arr.drop n
    let res := check_for_quake_alerts alert_threshold ring (sorted.take n)
    ({ quakes := sorted, count := n }, res.1, res.2)

/-- Displayed ranked quake list: the first g_quake_count slots of
g_quakes (render_display loop, main.c lines 239-242). -/
def displayList (st : SeismicState) : List Earthquake :=
  st.quakes.take st.count

/-- Process-start seismic state: the globals g_quakes and g_quake_count
are zero-initialized (main.c lines 58-59), so every slot holds magnitude
0 and empty strings. -/
def initialSeismicState : SeismicState :=
  { quakes := List.replicate MAX_QUAKES { mag := 0, place := "", time_ago := "", id := "" }
    count := 0 }

/-- Repeated fetch cycles as seen by the alert ring: each cycle runs
check_for_quake_alerts on that cycle's ranked list (the driver loop,
main.c lines 109-115, always reaches it through fetch_seismic_data).
Returns the final ring and the concatenated bell trace. -/
def runCycles (alert_threshold : Mag) (r : List String) :
    List (List Earthquake) → List String × List String
  | [] => (r, [])
  | qs :: rest =>
    let c := check_for_quake_alerts alert_threshold r qs
    let res := runCycles alert_threshold c.1 rest
    (res.1, c.2 ++ res.2)

/-- Bell trace of a whole run started from the empty ring (process
start: g_alerted_ids_count = 0, main.c line 61). -/
def alertTrace (alert_threshold : Mag) (cycles : List (List Earthquake)) : List String :=
  (runCycles alert_threshold [] cycles).2

/-- Ring dynamics restricted to the identifiers it processes: the
lookup-then-insert of check_for_quake_alerts with the magnitude test
abstracted away. -/
def runIds (r : List String) : List String → List String × List String
  | [] => (r, [])
  | x :: s =>
    if x ∈ r then runIds r s
    else
      let res := runIds (insertRing r x) s
      (res.1, x :: res.2)

/-- Identifiers of the alert-eligible quakes of one cycle, in scan
order. -/
def eligibleIds (alert_threshold : Mag) (qs : List Earthquake) : List String :=
  (qs.filter fun q => alert_threshold ≤ q.mag).map (·.id)

/-- Last MAX_ALERTED_IDS elements of a list. -/
def lastN (l : List String) : List String :=
  l.drop (l.length - MAX_ALERTED_IDS)

/-- Window distinctness: any two positions at most MAX_ALERTED_IDS apart
hold different identifiers. -/
def windowDistinct (L : List String) : Prop :=
  ∀ p q, p < q → q ≤ p + MAX_ALERTED_IDS → q < L.length →
    L.getD p "" ≠ L.getD q ""

/-- Input view of the weather response, as fetch_lightning_data reads it
(main.c lines 208-220): current is some v when the current member is a
JSON object, v being json_integer_value of its weather_code (0 when that
field is absent or not an integer); hourly is some vs when the hourly
member is an object whose weather_code member is an array, vs being the
integer values of its entries. -/
structure LightningFeed where
  current : Option Int
  hourly : Option (List Int)
deriving DecidableEq, Repr

/-- Hourly write loop (main.c lines 216-218): for i < 6 and i below the
array size, overwrite slot i with entry i.  Slots beyond the array keep
their (zeroed) contents. -/
def writeHourly : List Int → List Int → List Int
  | dest, [] => dest
  | [], _ :: _ => []
  | _ :: dest, v :: vs => v :: writeHourly dest vs

/-- Function fetch_lightning_data (main.c lines 185-227): g_weather_code
and all six g_hourly_weather_codes are zeroed first (lines 189-190); on
transport or parse failure they stay zero; on success the current code
and the first up-to-6 hourly codes overwrite them.  Returns the pair
(g_weather_code, g_hourly_weather_codes). -/
def fetch_lightning_data (feed : Option LightningFeed) : Int × List Int :=
  let hourly0 : List Int := List.replicate 6 0
  match feed with
  | none => (0, hourly0)
  | some f =>
    let code := match f.current with
      | some v => v
      | none => 0
    let hourly := match f.hourly with
      | some vs => writeHourly hourly0 vs
      | none => hourly0
    (code, hourly)

/-- Lightning status banner of render_display. -/
inductive Banner where
  | warning
  | watch
  | allClear
deriving DecidableEq, Repr

/-- Storm-code test (main.c lines 247, 250): code 95, 96 or 99. -/
def isStormCode (c : Int) : Bool :=
  c == 95 || c == 96 || c == 99

/-- Watch scan (main.c lines 249-254): indices 1 to 5 of the hourly
array, with early exit on the first hit — equivalently a disjunction. -/
def is_watch (hourly : List Int) : Bool :=
  isStormCode (hourly.getD 1 0) || isStormCode (hourly.getD 2 0) ||
    isStormCode (hourly.getD 3 0) || isStormCode (hourly.getD 4 0) ||
      isStormCode (hourly.getD 5 0)

/-- Banner-and-flag part of render_display (main.c lines 247-271): the
warning banner when the current code is a storm code (bell exactly when
g_is_storm_active was 0, which is then set); otherwise the watch banner
when hourly indices 1..5 contain a storm code, clearing the flag;
otherwise all clear, clearing the flag.  Returns (banner, new
storm-active flag, bell emitted). -/
def render_display (weather_code : Int) (hourly : List Int) (storm_active : Bool) :
    Banner × Bool × Bool :=
  if isStormCode weather_code then (Banner.warning, true, !storm_active)
  else if is_watch hourly then (Banner.watch, false, false)
  else (Banner.allClear, false, false)

/-- Configuration assembled by main's argument loop (main.c lines
80-100). -/
structure Config where
  min_magnitude : Mag
  alert_threshold : Mag
  latitude : Mag
  longitude : Mag
deriving DecidableEq, Repr

/-- Startup values (main.c lines 67-68, 81-82): min_magnitude 0,
alert_threshold MAJOR_QUAKE_THRESHOLD, location Guisborough UK. -/
def defaultConfig : Config :=
  { min_magnitude := 0
    alert_threshold := MAJOR_QUAKE_THRESHOLD
    latitude := 5453 / 100
    longitude := -105 / 100 }

/-- Argument loop of main (main.c lines 85-100).  atof is the libc
string-to-double conversion, an external collaborator passed in as a
function.  A -q with a following value parses it, clamps below at 0 and
sets both min_magnitude and alert_threshold; -l with two following
values sets the location; the word test zeroes alert_threshold only;
anything else (including -q or -l without enough following values) is
reported as unknown and skipped. -/
def parseArgs (atof : String → Mag) : List String → Config → Config
  | [], c => c
  | "-q" :: v :: rest, c =>
    let m := if atof v < 0 then 0 else atof v
    parseArgs atof rest { c with min_magnitude := m, alert_threshold := m }
  | "-l" :: la :: lo :: rest, c =>
    parseArgs atof rest { c with latitude := atof la, longitude := atof lo }
  | a :: rest, c =>
    if a = "test" then parseArgs atof rest { c with alert_threshold := 0 }
    else parseArgs atof rest c

/-- First-cycle feed of the slot-inheritance scenario: one quake with
both place and id strings present. -/
def inheritFeedA : List Feature :=
  [{ mag := 6, place := some "near town", id := some "quakeA", time := 0 }]

/-- Second-cycle feed of the slot-inheritance scenario: one unrelated
quake whose properties carry no id string at all. -/
def inheritFeedB : List Feature :=
  [{ mag := 7, place := some "elsewhere", id := none, time := 0 }]

/-- First fetch cycle of the slot-inheritance scenario, from process
start. -/
def inheritCycle1 : SeismicState × List String × List String :=
  fetch_seismic_data 0 0 0 (some inheritFeedA) initialSeismicState []

/-- Second fetch cycle of the slot-inheritance scenario, continuing from
the first cycle's state and ring. -/
def inheritCycle2 : SeismicState × List String × List String :=
  fetch_seismic_data 0 0 0 (some inheritFeedB) inheritCycle1.1 inheritCycle1.2.1

/-- Concrete run used to instantiate the ring-deduplication theorem: 51
cycles carrying the distinct identifiers 0..50 followed by one cycle
carrying identifier 0 again, every quake alert-eligible. -/
def wCycles : List (List Earthquake) :=
  ((List.range 51).map fun n =>
    [{ mag := 1, place := "", time_ago := "", id := toString n }]) ++
      [[{ mag := 1, place := "", time_ago := "", id := "0" }]]

/-- Concrete stand-in for libc atof, used to instantiate theorems about
the argument loop on the spec's scenario tokens. -/
def atofW : String → Mag := fun s =>
  if s = "5" then 5
  else if s = "40.71" then 4071 / 100
  else if s = "-74.00" then -74
  else 0

/-! ## Helper lemmas -/

theorem string_take_of_le (s : String) (n : Nat) (h : s.length ≤ n) : s.take n = s := by
  rcases s with ⟨data⟩
  rw [String.take_eq]
  exact congrArg String.mk (List.take_of_length_le h)

theorem isStormCode_iff (c : Int) : isStormCode c = true ↔ c ∈ ([95, 96, 99] : List Int) := by
  simp [isStormCode]
  tauto

theorem is_watch_iff (hourly : List Int) :
    is_watch hourly = true ↔
      ∃ i, 1 ≤ i ∧ i ≤ 5 ∧ hourly.getD i 0 ∈ ([95, 96, 99] : List Int) := by
  constructor
  · intro h
    by_cases h1 : hourly.getD 1 0 ∈ ([95, 96, 99] : List Int)
    · exact ⟨1, le_refl 1, by omega, h1⟩
    · by_cases h2 : hourly.getD 2 0 ∈ ([95, 96, 99] : List Int)
      · exact ⟨2, by omega, by omega, h2⟩
      · by_cases h3 : hourly.getD 3 0 ∈ ([95, 96, 99] : List Int)
        · exact ⟨3, by omega, by omega, h3⟩
        · by_cases h4 : hourly.getD 4 0 ∈ ([95, 96, 99] : List Int)
          · exact ⟨4, by omega, by omega, h4⟩
          · by_cases h5 : hourly.getD 5 0 ∈ ([95, 96, 99] : List Int)
            · exact ⟨5, by omega, by omega, h5⟩
            · have e1 : isStormCode (hourly.getD 1 0) = false := by
                rw [← Bool.not_eq_true, isStormCode_iff]; exact h1
              have e2 : isStormCode (hourly.getD 2 0) = false := by
                rw [← Bool.not_eq_true, isStormCode_iff]; exact h2
              have e3 : isStormCode (hourly.getD 3 0) = false := by
                rw [← Bool.not_eq_true, isStormCode_iff]; exact h3
              have e4 : isStormCode (hourly.getD 4 0) = false := by
                rw [← Bool.not_eq_true, isStormCode_iff]; exact h4
              have e5 : isStormCode (hourly.getD 5 0) = false := by
                rw [← Bool.not_eq_true, isStormCode_iff]; exact h5
              rw [is_watch, e1, e2, e3, e4, e5] at h
              simp at h
  · rintro ⟨i, hi1, hi5, hm⟩
    rw [is_watch]
    interval_cases i <;>
      simp only [Bool.or_eq_true, isStormCode_iff] <;> tauto

theorem warning_selected {c : Int} {hr : List Int} {flag : Bool}
    (w : (render_display c hr flag).1 = Banner.warning) : isStormCode c = true := by
  by_contra hc
  rw [Bool.not_eq_true] at hc
  by_cases hw : is_watch hr = true
  · simp [render_display, hc, hw] at w
  · simp [render_display, hc, hw] at w

theorem drop_replicate {α : Type} (a : α) :
    ∀ k n, (List.replicate n a).drop k = List.replicate (n - k) a := by
  intro k
  induction k with
  | zero => simp
  | succ k ih =>
    intro n
    cases n with
    | zero => simp
    | succ n =>
      rw [List.replicate_succ, List.drop_succ_cons, ih, Nat.succ_sub_succ]

theorem writeHourly_eq (dest vs : List Int) :
    writeHourly dest vs = vs.take dest.length ++ dest.drop vs.length := by
  induction dest generalizing vs with
  | nil => cases vs <;> simp [writeHourly]
  | cons d dest ih =>
    cases vs with
    | nil => simp [writeHourly]
    | cons v vs => simp [writeHourly, ih]

/-! ## Claims -/

/-- Claim C8 (amended).  For every event timestamp, the relative-age
label is computed from diff = now - event_time_ms/1000 in seconds: if
diff is under 60 the label is "<diff>s ago", otherwise "<diff/60>m ago"
with integer division and no hours or days granularity — provided the
formatted text fits the 19 characters that the 20-byte time_ago buffer
can hold (snprintf truncates longer labels); an event 30000 ms before
now yields "30s ago" and one 185000 ms before now yields "3m ago". -/
theorem time_ago_spec (now t : Int) :
    (now - t.tdiv 1000 < 60 →
      (toString (now - t.tdiv 1000) ++ "s ago").length ≤ 19 →
      format_time_ago now t = toString (now - t.tdiv 1000) ++ "s ago") ∧
    (60 ≤ now - t.tdiv 1000 →
      (toString ((now - t.tdiv 1000).tdiv 60) ++ "m ago").length ≤ 19 →
      format_time_ago now t = toString ((now - t.tdiv 1000).tdiv 60) ++ "m ago") ∧
    format_time_ago now (1000 * now - 30000) = "30s ago" ∧
    format_time_ago now (1000 * now - 185000) = "3m ago" := by
  refine ⟨?_, ?_, ?_, ?_⟩
  · intro hlt hfit
    rw [format_time_ago]
    simp only [hlt, if_true, if_pos hlt]
    exact string_take_of_le _ _ hfit
  · intro hge hfit
    rw [format_time_ago]
    rw [if_neg (by omega)]
    exact string_take_of_le _ _ hfit
  · have ht : (1000 * now - 30000).tdiv 1000 = now - 30 := by
      have : 1000 * now - 30000 = 1000 * (now - 30) := by ring
      rw [this, Int.mul_tdiv_cancel_left _ (by norm_num)]
    rw [format_time_ago, ht]
    have hd : now - (now - 30) = 30 := by ring
    rw [hd]
    decide
  · have ht : (1000 * now - 185000).tdiv 1000 = now - 185 := by
      have : 1000 * now - 185000 = 1000 * (now - 185) := by ring
      rw [this, Int.mul_tdiv_cancel_left _ (by norm_num)]
    rw [format_time_ago, ht]
    have hd : now - (now - 185) = 185 := by ring
    rw [hd]
    decide

/-- Witness for time_ago_spec at now = 100, t = 70000: diff is 30. -/
theorem time_ago_spec_witness :
    (100 : Int) - (70000 : Int).tdiv 1000 < 60 ∧
    format_time_ago 100 70000 = toString ((100 : Int) - (70000 : Int).tdiv 1000) ++ "s ago" := by
  exact ⟨by decide, (time_ago_spec 100 70000).1 (by decide) (by decide)⟩

/-- Counterexample to claim C8 as stated: with event_time_ms
9*10^18 (within long long range) and now = 1700000000, diff is about
-9*10^15, whose seconds label needs 22 characters; snprintf keeps only
19, so the label is not "<diff>s ago". -/
theorem time_ago_truncation_counterexample :
    (1700000000 : Int) - (9000000000000000000 : Int).tdiv 1000 < 60 ∧
    format_time_ago 1700000000 9000000000000000000 ≠
      toString ((1700000000 : Int) - (9000000000000000000 : Int).tdiv 1000) ++ "s ago" := by
  constructor
  · decide
  · decide

/-- Claim C10 (amended).  For every event timestamp strictly in the
future (event_time_ms/1000 greater than now) the diff is negative,
hence under 60, so the seconds branch is always taken — never the
minutes branch; the label is the negative seconds text "<diff>s ago"
truncated to the 19 characters the buffer holds (e.g. an event 120000 ms
after now = 0 yields "-120s ago"). -/
theorem future_time_seconds_label (now t : Int) (h : now < t.tdiv 1000) :
    now - t.tdiv 1000 < 0 ∧
    format_time_ago now t = (toString (now - t.tdiv 1000) ++ "s ago").take 19 ∧
    ((toString (now - t.tdiv 1000) ++ "s ago").length ≤ 19 →
      format_time_ago now t = toString (now - t.tdiv 1000) ++ "s ago") ∧
    format_time_ago 0 120000 = "-120s ago" := by
  have hneg : now - t.tdiv 1000 < 0 := by omega
  refine ⟨hneg, ?_, ?_, by decide⟩
  · rw [format_time_ago, if_pos (by omega)]
  · intro hfit
    rw [format_time_ago, if_pos (by omega)]
    exact string_take_of_le _ _ hfit

/-- Witness for future_time_seconds_label at now = 0, t = 120000. -/
theorem future_time_seconds_label_witness :
    (0 : Int) < (120000 : Int).tdiv 1000 ∧
    format_time_ago 0 120000 = (toString ((0 : Int) - (120000 : Int).tdiv 1000) ++ "s ago").take 19 := by
  exact ⟨by decide, (future_time_seconds_label 0 120000 (by decide)).2.1⟩

/-- Counterexample to claim C10 as stated: an event 10^18 ms in the
future of now = 0 has diff -10^15; its seconds label needs 22
characters, so the 20-byte buffer truncates it and the rendered text is
not of the form "<negative n>s ago". -/
theorem future_time_truncation_counterexample :
    (0 : Int) < (1000000000000000000 : Int).tdiv 1000 ∧
    format_time_ago 0 1000000000000000000 ≠
      toString ((0 : Int) - (1000000000000000000 : Int).tdiv 1000) ++ "s ago" := by
  constructor
  · decide
  · decide

/-- Claim C3.  For every render, the lightning banner follows strict
priority: a current condition code in {95, 96, 99} selects the warning
banner regardless of hourly codes; otherwise a storm code among hourly
indices 1..5 selects the watch banner; otherwise the all-clear banner is
selected; and in the watch and all-clear cases the storm-active flag is
false after the render. -/
theorem lightning_banner_priority (code : Int) (hourly : List Int) (flag : Bool) :
    (code ∈ ([95, 96, 99] : List Int) →
      (render_display code hourly flag).1 = Banner.warning) ∧
    (code ∉ ([95, 96, 99] : List Int) →
      (∃ i, 1 ≤ i ∧ i ≤ 5 ∧ hourly.getD i 0 ∈ ([95, 96, 99] : List Int)) →
      (render_display code hourly flag).1 = Banner.watch ∧
        (render_display code hourly flag).2.1 = false) ∧
    (code ∉ ([95, 96, 99] : List Int) →
      (¬ ∃ i, 1 ≤ i ∧ i ≤ 5 ∧ hourly.getD i 0 ∈ ([95, 96, 99] : List Int)) →
      (render_display code hourly flag).1 = Banner.allClear ∧
        (render_display code hourly flag).2.1 = false) := by
  refine ⟨?_, ?_, ?_⟩
  · intro hc
    have hs : isStormCode code = true := (isStormCode_iff code).2 hc
    simp [render_display, hs]
  · intro hc hw
    have hs : isStormCode code = false := by
      rw [← Bool.not_eq_true, isStormCode_iff]; exact hc
    have hw2 : is_watch hourly = true := (is_watch_iff hourly).2 hw
    simp [render_display, hs, hw2]
  · intro hc hw
    have hs : isStormCode code = false := by
      rw [← Bool.not_eq_true, isStormCode_iff]; exact hc
    have hw2 : is_watch hourly = false := by
      rw [← Bool.not_eq_true, is_watch_iff]; exact hw
    simp [render_display, hs, hw2]

/-- Witness for lightning_banner_priority: current 95 gives the warning
banner; current 0 with 95 at hourly index 1 gives the watch banner;
current 0 with no hourly storm codes gives all clear with a false
flag. -/
theorem lightning_banner_priority_witness :
    (render_display 95 [0, 0, 0, 0, 0, 0] true).1 = Banner.warning ∧
    ((render_display 0 [0, 95, 0, 0, 0, 0] false).1 = Banner.watch ∧
      (render_display 0 [0, 95, 0, 0, 0, 0] false).2.1 = false) ∧
    ((render_display 0 [0, 0, 0, 0, 0, 0] false).1 = Banner.allClear ∧
      (render_display 0 [0, 0, 0, 0, 0, 0] false).2.1 = false) := by
  refine ⟨(lightning_banner_priority 95 [0, 0, 0, 0, 0, 0] true).1 (by decide),
    (lightning_banner_priority 0 [0, 95, 0, 0, 0, 0] false).2.1 (by decide)
      ⟨1, le_refl 1, by omega, by decide⟩,
    (lightning_banner_priority 0 [0, 0, 0, 0, 0, 0] false).2.2 (by decide) ?_⟩
  rintro ⟨i, hi1, hi5, hm⟩
  interval_cases i <;> simp_all

/-- Claim C4.  The storm audible alert is edge-triggered: a render that
selects the warning banner with the storm-active flag false emits
exactly one bell and sets the flag; a subsequent render that again
selects the warning banner (reading the flag the first one set) emits no
bell and keeps the flag set. -/
theorem storm_alert_edge_triggered (c1 c2 : Int) (h1 h2 : List Int)
    (w1 : (render_display c1 h1 false).1 = Banner.warning)
    (w2 : (render_display c2 h2 (render_display c1 h1 false).2.1).1 = Banner.warning) :
    (render_display c1 h1 false).2.2 = true ∧
    (render_display c1 h1 false).2.1 = true ∧
    (render_display c2 h2 (render_display c1 h1 false).2.1).2.2 = false ∧
    (render_display c2 h2 (render_display c1 h1 false).2.1).2.1 = true := by
  have s1 := warning_selected w1
  have e1 : render_display c1 h1 false = (Banner.warning, true, true) := by
    simp [render_display, s1]
  have w2b : (render_display c2 h2 true).1 = Banner.warning := by
    rw [e1] at w2; exact w2
  have s2 := warning_selected w2b
  have e2 : render_display c2 h2 true = (Banner.warning, true, false) := by
    simp [render_display, s2]
  refine ⟨by simp [e1], by simp [e1], by simp [e1, e2], by simp [e1, e2]⟩

/-- Witness for storm_alert_edge_triggered: current code 95 on both
renders. -/
theorem storm_alert_edge_triggered_witness :
    (render_display 95 [] false).2.2 = true ∧
    (render_display 95 [] false).2.1 = true ∧
    (render_display 95 [] (render_display 95 [] false).2.1).2.2 = false ∧
    (render_display 95 [] (render_display 95 [] false).2.1).2.1 = true :=
  storm_alert_edge_triggered 95 95 [] [] (by decide) (by decide)

/-- Claim C5.  After every lightning refresh, a transport or parse
failure leaves the current code 0 and all six hourly codes 0; a success
stores the feed's current condition code (0 when the current object is
absent) and the first up-to-6 entries of the feed's hourly array, with 0
at every index the feed does not supply. -/
theorem lightning_refresh_spec :
    fetch_lightning_data none = (0, List.replicate 6 0) ∧
    ∀ f : LightningFeed,
      (fetch_lightning_data (some f)).1 = f.current.getD 0 ∧
      (fetch_lightning_data (some f)).2 =
        (f.hourly.getD []).take 6 ++ List.replicate (6 - (f.hourly.getD []).length) 0 := by
  refine ⟨rfl, fun f => ⟨?_, ?_⟩⟩
  · cases hc : f.current <;> simp [fetch_lightning_data, hc]
  · cases hh : f.hourly with
    | none => simp [fetch_lightning_data, hh]
    | some vs =>
      simp only [fetch_lightning_data, hh, Option.getD_some]
      rw [writeHourly_eq, drop_replicate]
      simp

/-- Claim C6.  The seismic pipeline zeroes the quake count at the start
of every fetch, so a transport or parse failure yields an empty ranked
list for that cycle, leaves the alert ring untouched, rings no bell and
prints nothing; and the fetch result never depends on the previous
cycle's count. -/
theorem seismic_failure_empty (now : Int) (m thr : Mag) (st : SeismicState)
    (ring : List String) :
    fetch_seismic_data now m thr none st ring = ({ st with count := 0 }, ring, []) ∧
    displayList (fetch_seismic_data now m thr none st ring).1 = [] ∧
    ∀ feed c, fetch_seismic_data now m thr feed { st with count := c } ring =
      fetch_seismic_data now m thr feed { st with count := 0 } ring := by
  refine ⟨rfl, rfl, fun feed c => ?_⟩
  cases feed <;> rfl

/-- Claim C7 (amended).  A -q flag with value x sets both the display
filter and the alert threshold to x clamped below at 0; -l sets the
monitor location; the word test zeroes the alert threshold while leaving
the display filter unchanged; with no flag the alert threshold defaults
to MAJOR_QUAKE_THRESHOLD, 6.0 (not to the display filter, which defaults
to 0); and "-q 5 -l 40.71 -74.00" yields min 5, alert 5, location
(40.71, -74.00). -/
theorem cli_args_spec (atof : String → Mag) :
    (∀ v rest c, parseArgs atof ("-q" :: v :: rest) c =
      parseArgs atof rest
        { c with min_magnitude := max (atof v) 0, alert_threshold := max (atof v) 0 }) ∧
    (∀ la lo rest c, parseArgs atof ("-l" :: la :: lo :: rest) c =
      parseArgs atof rest { c with latitude := atof la, longitude := atof lo }) ∧
    (∀ rest c, parseArgs atof ("test" :: rest) c =
      parseArgs atof rest { c with alert_threshold := 0 }) ∧
    parseArgs atof [] defaultConfig = defaultConfig ∧
    defaultConfig.alert_threshold = MAJOR_QUAKE_THRESHOLD ∧
    defaultConfig.min_magnitude = 0 ∧
    (atof "5" = 5 → atof "40.71" = 4071 / 100 → atof "-74.00" = -74 →
      parseArgs atof ["-q", "5", "-l", "40.71", "-74.00"] defaultConfig =
        { min_magnitude := 5, alert_threshold := 5, latitude := 4071 / 100,
          longitude := -74 }) := by
  have hmax : ∀ x : Mag, (if x < 0 then (0 : Mag) else x) = max x 0 := by
    intro x
    rcases lt_or_le x 0 with h | h
    · rw [if_pos h, max_eq_right h.le]
    · rw [if_neg (not_lt.2 h), max_eq_left h]
  refine ⟨fun v rest c => ?_, fun la lo rest c => ?_, fun rest c => ?_, rfl, rfl, rfl,
    fun h5 h40 h74 => ?_⟩
  · simp [parseArgs, hmax]
  · simp [parseArgs]
  · simp [parseArgs]
  · simp [parseArgs, h5, h40, h74]

/-- Witness for cli_args_spec: the scenario evaluated with a concrete
atof. -/
theorem cli_args_spec_witness :
    atofW "5" = 5 ∧
    parseArgs atofW ["-q", "5", "-l", "40.71", "-74.00"] defaultConfig =
      { min_magnitude := 5, alert_threshold := 5, latitude := 4071 / 100,
        longitude := -74 } := by
  exact ⟨by simp [atofW],
    (cli_args_spec atofW).2.2.2.2.2.2 (by simp [atofW]) (by simp [atofW])
      (by simp [atofW])⟩

/-- Counterexample to claim C7 as stated: with no flags at all, the
alert threshold is MAJOR_QUAKE_THRESHOLD = 6 while the display filter is
0, so the alert threshold does not default to minMagnitude. -/
theorem cli_args_default_counterexample :
    (parseArgs (fun _ => 0) [] defaultConfig).alert_threshold = 6 ∧
    (parseArgs (fun _ => 0) [] defaultConfig).min_magnitude = 0 ∧
    (6 : Mag) ≠ 0 := by
  refine ⟨rfl, rfl, by norm_num⟩

theorem selectQuakes_eq (m : Mag) :
    ∀ (fs : List Feature) (k : Nat),
      selectQuakes m k fs =
        (fs.filter fun f => decide (m ≤ f.mag)).take (MAX_QUAKES - k) := by
  intro fs
  induction fs with
  | nil => intro k; simp [selectQuakes]
  | cons f fs ih =>
    intro k
    rw [selectQuakes]
    by_cases hk : k < MAX_QUAKES
    · rw [if_pos hk]
      by_cases hm : m ≤ f.mag
      · rw [if_pos hm, List.filter_cons_of_pos (by simpa using hm)]
        have h2 : MAX_QUAKES - k = (MAX_QUAKES - (k + 1)) + 1 := by omega
        rw [h2, List.take_succ_cons, ih]
      · rw [if_neg hm, List.filter_cons_of_neg (by simpa using hm), ih]
    · rw [if_neg hk]
      have h0 : MAX_QUAKES - k = 0 := by omega
      rw [h0, List.take_zero]

theorem writeZip_length (now : Int) :
    ∀ (fs : List Feature) (arr : List Earthquake),
      (writeZip now arr fs).length = arr.length := by
  intro fs
  induction fs with
  | nil => intro arr; rw [writeZip]
  | cons f fs ih =>
    intro arr
    cases arr with
    | nil => rw [writeZip]
    | cons s arr => rw [writeZip]; simp [ih]

theorem writeZip_take_map_mag (now : Int) :
    ∀ (fs : List Feature) (arr : List Earthquake), fs.length ≤ arr.length →
      ((writeZip now arr fs).take fs.length).map (fun q => q.mag) =
        fs.map (fun f => f.mag) := by
  intro fs
  induction fs with
  | nil => intro arr _; simp
  | cons f fs ih =>
    intro arr h
    cases arr with
    | nil => simp at h
    | cons s arr =>
      rw [writeZip]
      simp only [List.length_cons, List.take_succ_cons, List.map_cons]
      refine congrArg₂ _ rfl ?_
      exact ih arr (by simpa using h)

theorem writeZip_take_mem (now : Int) :
    ∀ (fs : List Feature) (arr : List Earthquake) (q : Earthquake),
      q ∈ (writeZip now arr fs).take fs.length → ∃ f ∈ fs, q.mag = f.mag := by
  intro fs
  induction fs with
  | nil => intro arr q hq; simp at hq
  | cons f fs ih =>
    intro arr q hq
    cases arr with
    | nil =>
      rw [writeZip] at hq
      simp at hq
    | cons s arr =>
      rw [writeZip] at hq
      simp only [List.length_cons, List.take_succ_cons, List.mem_cons] at hq
      rcases hq with hq | hq
      · exact ⟨f, List.mem_cons_self f fs, by rw [hq]; rfl⟩
      · obtain ⟨g, hg, he⟩ := ih arr q hq
        exact ⟨g, List.mem_cons_of_mem f hg, he⟩

/-- Claim C1.  After every successful fetch-and-parse cycle the ranked
quake list is a permutation, sorted descending by magnitude (ties in
the order the sort happens to leave them), of the records written from
the first 200 features in feed order whose magnitude is at least
min_magnitude; its magnitudes are exactly those of that filtered,
200-capped prefix of the feed; consequently its length never exceeds
200 and every entry's magnitude is at least min_magnitude. -/
theorem ranked_list_spec (now : Int) (m thr : Mag) (feed : List Feature)
    (st : SeismicState) (ring : List String) (hlen : st.quakes.length = MAX_QUAKES)
    (L : List Earthquake)
    (hL : L = displayList (fetch_seismic_data now m thr (some feed) st ring).1) :
    L.Sorted compare_quakes ∧
    List.Perm L
      ((writeZip now st.quakes (selectQuakes m 0 feed)).take (selectQuakes m 0 feed).length) ∧
    List.Perm (L.map fun q => q.mag)
      (((feed.filter fun f => decide (m ≤ f.mag)).take MAX_QUAKES).map fun f => f.mag) ∧
    L.length ≤ MAX_QUAKES ∧
    ∀ q ∈ L, m ≤ q.mag := by
  have hsel : selectQuakes m 0 feed =
      (feed.filter fun f => decide (m ≤ f.mag)).take MAX_QUAKES := by
    rw [selectQuakes_eq, Nat.sub_zero]
  have hn : (selectQuakes m 0 feed).length ≤ MAX_QUAKES := by
    rw [hsel]
    exact List.length_take_le _ _
  have harr : (writeZip now st.quakes (selectQuakes m 0 feed)).length = MAX_QUAKES := by
    rw [writeZip_length, hlen]
  have htake : ((writeZip now st.quakes (selectQuakes m 0 feed)).take
      (selectQuakes m 0 feed).length).length = (selectQuakes m 0 feed).length := by
    rw [List.length_take]
    omega
  have hsortlen : (((writeZip now st.quakes (selectQuakes m 0 feed)).take
      (selectQuakes m 0 feed).length).insertionSort compare_quakes).length =
      (selectQuakes m 0 feed).length := by
    rw [(List.perm_insertionSort compare_quakes _).length_eq, htake]
  have hL3 : L = ((writeZip now st.quakes (selectQuakes m 0 feed)).take
      (selectQuakes m 0 feed).length).insertionSort compare_quakes := by
    rw [hL]
    show (((writeZip now st.quakes (selectQuakes m 0 feed)).take
        (selectQuakes m 0 feed).length).insertionSort compare_quakes ++
        (writeZip now st.quakes (selectQuakes m 0 feed)).drop
          (selectQuakes m 0 feed).length).take (selectQuakes m 0 feed).length = _
    rw [List.take_append_of_le_length (le_of_eq hsortlen.symm),
      List.take_of_length_le (le_of_eq hsortlen)]
  have hperm : List.Perm L ((writeZip now st.quakes (selectQuakes m 0 feed)).take
      (selectQuakes m 0 feed).length) := by
    rw [hL3]
    exact List.perm_insertionSort compare_quakes _
  refine ⟨?_, hperm, ?_, ?_, ?_⟩
  · rw [hL3]
    exact List.sorted_insertionSort compare_quakes _
  · have h1 := hperm.map (fun q => q.mag)
    rw [writeZip_take_map_mag now _ _ (by omega)] at h1
    rw [hsel] at h1
    exact h1
  · rw [hL3, hsortlen]
    exact hn
  · intro q hq
    have hq2 : q ∈ (writeZip now st.quakes (selectQuakes m 0 feed)).take
        (selectQuakes m 0 feed).length := hperm.mem_iff.1 hq
    obtain ⟨f, hf, he⟩ := writeZip_take_mem now _ _ _ hq2
    have : m ≤ f.mag := by
      rw [hsel] at hf
      have := List.of_mem_filter (List.mem_of_mem_take hf)
      simpa using this
    rw [he]
    exact this

/-- Witness for ranked_list_spec: a two-feature feed from process
start. -/
theorem ranked_list_spec_witness :
    initialSeismicState.quakes.length = MAX_QUAKES ∧
    (displayList (fetch_seismic_data 0 0 10
      (some [{ mag := 3, place := some "A", id := some "a", time := 0 },
             { mag := 5, place := some "B", id := some "b", time := 0 }])
      initialSeismicState []).1).length ≤ MAX_QUAKES := by
  refine ⟨by simp [initialSeismicState], ?_⟩
  exact (ranked_list_spec 0 0 10
    [{ mag := 3, place := some "A", id := some "a", time := 0 },
     { mag := 5, place := some "B", id := some "b", time := 0 }]
    initialSeismicState [] (by simp [initialSeismicState]) _ rfl).2.2.2.1

/-- Claim C9.  A retained feature whose properties carry no place or no
id string leaves the corresponding slot bytes unchanged, so the record
written at that index inherits the text an earlier cycle's quake left in
the same slot (empty only for a never-written slot, since the globals
start zeroed); concretely, a second-cycle quake without an id inherits
"quakeA" from the unrelated first-cycle quake that used slot 0 and is
therefore deduplicated against it: its cycle rings no bell. -/
theorem place_id_inherited :
    (∀ (now : Int) (slot : Earthquake) (f : Feature),
      (f.id = none → (updateSlot now slot f).id = slot.id) ∧
      (f.place = none → (updateSlot now slot f).place = slot.place)) ∧
    initialSeismicState.quakes =
      List.replicate MAX_QUAKES { mag := 0, place := "", time_ago := "", id := "" } ∧
    inheritCycle1.2.2 = ["quakeA"] ∧
    (displayList inheritCycle2.1).map (fun q => q.id) = ["quakeA"] ∧
    (displayList inheritCycle2.1).map (fun q => q.mag) = [7] ∧
    (displayList inheritCycle2.1).map (fun q => q.place) = ["elsewhere"] ∧
    inheritCycle2.2.2 = [] := by
  refine ⟨fun now slot f => ⟨fun hid => ?_, fun hp => ?_⟩, rfl, ?_, ?_, ?_, ?_, ?_⟩
  · simp [updateSlot, hid]
  · simp [updateSlot, hp]
  · decide
  · decide
  · decide
  · decide
  · decide

/-- Witness for place_id_inherited: an absent id and an absent place
leave the old slot text in place. -/
theorem place_id_inherited_witness :
    (updateSlot 0 { mag := 1, place := "old place", time_ago := "", id := "oldid" }
      { mag := 2, place := none, id := none, time := 0 }).id = "oldid" ∧
    (updateSlot 0 { mag := 1, place := "old place", time_ago := "", id := "oldid" }
      { mag := 2, place := none, id := none, time := 0 }).place = "old place" := by
  exact ⟨(place_id_inherited.1 0
      { mag := 1, place := "old place", time_ago := "", id := "oldid" }
      { mag := 2, place := none, id := none, time := 0 }).1 rfl,
    (place_id_inherited.1 0
      { mag := 1, place := "old place", time_ago := "", id := "oldid" }
      { mag := 2, place := none, id := none, time := 0 }).2 rfl⟩

theorem lastN_nil : lastN [] = [] := rfl

theorem windowDistinct_nil : windowDistinct [] := by
  intro p q hpq h50 hq
  simp at hq

theorem insertRing_lastN (h : List String) (x : String) :
    insertRing (lastN h) x = lastN (h ++ [x]) := by
  by_cases hle : h.length < MAX_ALERTED_IDS
  · have h1 : lastN h = h := by
      rw [lastN, show h.length - MAX_ALERTED_IDS = 0 by omega, List.drop_zero]
    have h2 : lastN (h ++ [x]) = h ++ [x] := by
      rw [lastN, List.length_append, List.length_singleton,
        show h.length + 1 - MAX_ALERTED_IDS = 0 by omega, List.drop_zero]
    rw [h1, h2, insertRing, if_pos hle]
  · have hM : 1 ≤ MAX_ALERTED_IDS := by decide
    have hlen : (lastN h).length = MAX_ALERTED_IDS := by
      rw [lastN, List.length_drop]
      omega
    rw [insertRing, if_neg (by omega), lastN, List.tail_drop, lastN,
      List.length_append, List.length_singleton,
      List.drop_append_of_le_length (by omega)]
    congr 2
    omega

theorem windowDistinct_snoc {h : List String} {x : String}
    (hw : windowDistinct h) (hx : x ∉ lastN h) : windowDistinct (h ++ [x]) := by
  intro p q hpq hq50 hqlen
  rw [List.length_append, List.length_singleton] at hqlen
  by_cases hql : q < h.length
  · rw [List.getD_append _ _ _ _ (by omega), List.getD_append _ _ _ _ hql]
    exact hw p q hpq hq50 hql
  · have hqe : q = h.length := by omega
    subst hqe
    have hp : p < h.length := hpq
    rw [List.getD_append _ _ _ _ hp,
      List.getD_append_right _ _ _ _ (le_refl h.length), Nat.sub_self,
      List.getD_cons_zero]
    intro he
    apply hx
    rw [← he, lastN]
    have hidx : p - (h.length - MAX_ALERTED_IDS) <
        (h.drop (h.length - MAX_ALERTED_IDS)).length := by
      rw [List.length_drop]
      omega
    have h4 : h.getD p "" = (h.drop (h.length - MAX_ALERTED_IDS)).getD
        (p - (h.length - MAX_ALERTED_IDS)) "" := by
      rw [List.getD_eq_getElem _ _ hp, List.getD_eq_getElem _ _ hidx,
        List.getElem_drop]
      congr 1
      omega
    rw [h4, List.getD_eq_getElem _ _ hidx]
    exact List.getElem_mem hidx

theorem runIds_lastN :
    ∀ (s : List String) (h r : List String), r = lastN h → windowDistinct h →
      (runIds r s).1 = lastN (h ++ (runIds r s).2) ∧
        windowDistinct (h ++ (runIds r s).2) := by
  intro s
  induction s with
  | nil =>
    intro h r hr hw
    rw [runIds, List.append_nil]
    exact ⟨hr, hw⟩
  | cons x s ih =>
    intro h r hr hw
    rw [runIds]
    by_cases hx : x ∈ r
    · rw [if_pos hx]
      exact ih h r hr hw
    · rw [if_neg hx]
      have hx2 : x ∉ lastN h := by rw [← hr]; exact hx
      have h1 := ih (h ++ [x]) (insertRing r x)
        (by rw [hr, insertRing_lastN]) (windowDistinct_snoc hw hx2)
      rw [List.append_cons h x (runIds (insertRing r x) s).2]
      exact h1

theorem check_eq_runIds (thr : Mag) :
    ∀ (qs : List Earthquake) (r : List String),
      check_for_quake_alerts thr r qs = runIds r (eligibleIds thr qs) := by
  intro qs
  induction qs with
  | nil =>
    intro r
    rw [check_for_quake_alerts, eligibleIds]
    simp [runIds]
  | cons q qs ih =>
    intro r
    rw [check_for_quake_alerts]
    by_cases hm : thr ≤ q.mag
    · have he : eligibleIds thr (q :: qs) = q.id :: eligibleIds thr qs := by
        rw [eligibleIds, eligibleIds, List.filter_cons_of_pos (by simpa using hm),
          List.map_cons]
      rw [if_pos hm, he, runIds]
      by_cases hx : q.id ∈ r
      · rw [if_pos hx, if_pos hx, ih]
      · rw [if_neg hx, if_neg hx, ih]
    · have he : eligibleIds thr (q :: qs) = eligibleIds thr qs := by
        rw [eligibleIds, eligibleIds, List.filter_cons_of_neg (by simpa using hm)]
      rw [if_neg hm, he, ih]

theorem runCycles_lastN (thr : Mag) :
    ∀ (cs : List (List Earthquake)) (h r : List String),
      r = lastN h → windowDistinct h →
      (runCycles thr r cs).1 = lastN (h ++ (runCycles thr r cs).2) ∧
        windowDistinct (h ++ (runCycles thr r cs).2) := by
  intro cs
  induction cs with
  | nil =>
    intro h r hr hw
    rw [runCycles, List.append_nil]
    exact ⟨hr, hw⟩
  | cons qs cs ih =>
    intro h r hr hw
    rw [runCycles, check_eq_runIds]
    have h1 := runIds_lastN (eligibleIds thr qs) h r hr hw
    have h2 := ih (h ++ (runIds r (eligibleIds thr qs)).2)
      (runIds r (eligibleIds thr qs)).1 h1.1 h1.2
    rw [List.append_assoc] at h2
    exact h2

theorem alertTrace_windowDistinct (thr : Mag) (cs : List (List Earthquake)) :
    windowDistinct (alertTrace thr cs) := by
  have h := (runCycles_lastN thr cs [] [] lastN_nil.symm windowDistinct_nil).2
  rw [List.nil_append] at h
  exact h

/-- Claim C2.  In any run of fetch cycles from process start, an
identifier that rings the audible alert at trace position i rings again
at a position j only when j is more than MAX_ALERTED_IDS = 50 insertions
later, and the 50 identifiers inserted right after position i are
pairwise distinct and all differ from it — the FIFO ring must first be
filled with 50 subsequently-inserted distinct identifiers, evicting the
old one, before the same identifier can alert again. -/
theorem alert_dedup_fifo (thr : Mag) (cs : List (List Earthquake)) (i j : Nat)
    (hij : i < j) (hj : j < (alertTrace thr cs).length)
    (heq : (alertTrace thr cs).getD i "" = (alertTrace thr cs).getD j "") :
    i + MAX_ALERTED_IDS < j ∧
    (∀ p q, i < p → p < q → q ≤ i + MAX_ALERTED_IDS →
      (alertTrace thr cs).getD p "" ≠ (alertTrace thr cs).getD q "") ∧
    (∀ p, i < p → p ≤ i + MAX_ALERTED_IDS →
      (alertTrace thr cs).getD p "" ≠ (alertTrace thr cs).getD i "") := by
  have hw := alertTrace_windowDistinct thr cs
  have hfar : i + MAX_ALERTED_IDS < j := by
    by_contra hc
    exact hw i j hij (by omega) hj heq
  refine ⟨hfar, ?_, ?_⟩
  · intro p q hp hpq hq50
    exact hw p q hpq (by omega) (by omega)
  · intro p hip hp50 he
    exact hw i p hip (by omega) (by omega) he.symm

/-- Witness for alert_dedup_fifo: in wCycles the identifier 0 alerts at
trace positions 0 and 51, and 0 + 50 < 51. -/
theorem alert_dedup_fifo_witness :
    (0 : Nat) < 51 ∧ 51 < (alertTrace 0 wCycles).length ∧
    (alertTrace 0 wCycles).getD 0 "" = (alertTrace 0 wCycles).getD 51 "" ∧
    0 + MAX_ALERTED_IDS < 51 :=
  ⟨by decide, by decide, by decide,
    (alert_dedup_fifo 0 wCycles 0 51 (by decide) (by decide) (by decide)).1⟩

end EarthquakeMonitor
